import Mathlib

/-!
# Shallow embedding of `deconf.py` (the `deconf` repository)

The repository's core is the `Deconfigurable` class together with the
`parameter` decorator.  A configurable type declares named parameters; at
construction time (`Deconfigurable.__init__`) every declared parameter is
resolved from a keyword-argument mapping, honouring declared dependencies,
defaults and type constraints, and the result is stored as an attribute.

The embedding below mirrors the source line by line:

* `Value` is the fragment of Python values the development needs (strings,
  integers, booleans and `None`), with Python truthiness (`truthy`) and
  Python `isinstance` (`isInstance`; note `bool` is a subclass of `int`).
* `Param` is the metadata the `parameter` decorator attaches to a handler:
  the parameter name (`__param__`), `depends_on` (`__dependencies__`), the
  optional `ensure_type`, the optional `default` (absence of a default is
  the `Undefined` sentinel, modelled by `Option.none`), and the decorated
  handler `f` itself (`transform`, which receives the partially-built
  object and the raw value).
* `wrapper` is the inner function of the decorator (deconf.py lines
  168-182): membership test in `kwargs`, `isinstance` check for supplied
  values, defaulting or `RequiredParameterError` for missing ones, then
  `retval = f(self, val); setattr(self, param, retval or val)`.  The
  Python expression `retval or val` is `orVal`.
* `processParam` is `Deconfigurable._process_param` (lines 140-162).  The
  Python function recurses through dependencies while mutating a shared
  `chain` list; the embedding threads the chain explicitly and uses a
  fuel argument (`Nat`) purely to make the recursion structural.  Calling
  `_process_param` with `method = None` (which happens when a dependency
  name has no declaration, line 152/155) reaches `method(kwargs)` with
  `method = None`, i.e. Python raises `TypeError: 'NoneType' object is
  not callable`; this outcome is the error `Err.noneNotCallable`.
* `Deconfigurable.init` is `Deconfigurable.__init__` (lines 126-130): the
  registry `methods` stands for `self._param_methods` in its dict
  iteration order (Python dict keys are unique, which is why theorems at
  most assume name-uniqueness), and the loop calls `_process_param` for
  every declared parameter with a fresh chain.

A raised Python exception aborts construction but leaves the already
performed mutations in place, so errors carry the state at the raise:
results live in `Except (Err × St) St`.  The state `St` records the keys
of `self._param_vals` (its values are all Python `None`, since `wrapper`
returns `None`), the attributes written by `setattr`, and - as pure
instrumentation - the trace of transform invocations (one entry per call
of the decorated handler `f`).
-/

namespace Deconf

/-- The fragment of Python values used by the development: strings,
integers, booleans and `None`. -/
inductive Value where
  | vstr (s : String)
  | vint (n : Int)
  | vbool (b : Bool)
  | vnone
  deriving DecidableEq, Repr

/-- Python truthiness on `Value`: empty string, zero, `False` and `None`
are falsy, everything else is truthy. -/
def truthy : Value → Bool
  | .vstr s => !s.isEmpty
  | .vint n => n != 0
  | .vbool b => b
  | .vnone => false

/-- The type objects that can be passed as `ensure_type`. -/
inductive PyType where
  | tstr
  | tint
  | tbool
  deriving DecidableEq, Repr

/-- Python `isinstance` on the modelled fragment; `bool` is a subclass of
`int` in Python, so booleans are instances of `int`. -/
def isInstance : Value → PyType → Bool
  | .vstr _, .tstr => true
  | .vint _, .tint => true
  | .vbool _, .tbool => true
  | .vbool _, .tint => true
  | _, _ => false

/-- Attributes of the object under construction (`self`), as written by
`setattr`.  Reads go through `List.lookup`, so the head of the list is the
most recent write. -/
abbrev Attrs := List (String × Value)

/-- `setattr(self, k, v)`: the new binding shadows any previous one. -/
def setattr (a : Attrs) (k : String) (v : Value) : Attrs :=
  (k, v) :: a

/-- The keyword-argument mapping passed to `Deconfigurable.__init__`
(Python dict: keys unique, `lookup` is both the `in` test and the
subscript). -/
abbrev Kwargs := List (String × Value)

/-- The metadata attached by `@parameter(param, depends_on, ensure_type,
default)` to a decorated handler, together with the handler itself. -/
structure Param where
  name : String
  depends_on : List String
  ensure_type : Option PyType
  default : Option Value
  transform : Attrs → Value → Value

/-- The errors construction can end in.  The first three are the
exception classes of deconf.py; `noneNotCallable` is the Python
`TypeError` raised by `method(kwargs)` when `method` is `None` (an
undeclared dependency); `outOfFuel` is an artefact of the structural
recursion and never occurs for the fuel supplied by `Deconfigurable.init`
on the inputs considered in the theorems below. -/
inductive Err where
  | required (cls : String) (param : String)
  | cyclical (root : String)
  | paramType (param : String) (ty : PyType)
  | noneNotCallable
  | outOfFuel
  deriving DecidableEq, Repr

/-- The mutable state of the object under construction: the key set of
`self._param_vals` (all its values are Python `None`), the attributes set
by `setattr`, and the instrumentation trace of transform invocations. -/
structure St where
  param_vals : List String
  attrs : Attrs
  trace : List String
  deriving DecidableEq, Repr

/-- The Python expression `retval or val` (line 182): the transform's
result if it is truthy, otherwise the raw value. -/
def orVal (retval val : Value) : Value :=
  if truthy retval then retval else val

/-- The `ensure_type` test of line 171, as a predicate: vacuously true
when no type constraint is declared. -/
def typeOk (p : Param) (v : Value) : Bool :=
  match p.ensure_type with
  | some t => isInstance v t
  | none => true

/-- `wrapper(self, kwargs)` from the `parameter` decorator (deconf.py
lines 168-182).  On success it returns the updated object state (the
Python function returns `None`; its effect is the `setattr`).  On failure
it returns the raised error together with the state at the raise. -/
def wrapper (cls : String) (p : Param) (kwargs : Kwargs) (st : St) :
    Except (Err × St) St :=
  let app := fun (val : Value) =>
    let retval := p.transform st.attrs val
    Except.ok { st with
      attrs := setattr st.attrs p.name (orVal retval val),
      trace := st.trace ++ [p.name] }
  match kwargs.lookup p.name with
  | some val =>
    match p.ensure_type with
    | some t =>
      if isInstance val t then app val
      else .error (.paramType p.name t, st)
    | none => app val
  | none =>
    match p.default with
    | some d => app d
    | none => .error (.required cls p.name, st)

/-- `self._param_vals[param] = ...` as a key-set update: Python dict
assignment leaves the key set unchanged when the key is present. -/
def insertKey (l : List String) (k : String) : List String :=
  if k ∈ l then l else l ++ [k]

/-- The two recursion modes of `_process_param`: processing one parameter
(`proc param method`, the whole body) and the remaining iterations of its
dependency loop (`deps ds`, lines 146-160). -/
inductive Task where
  | proc (param : String) (method : Option Param)
  | deps (ds : List String)

/-- `Deconfigurable._process_param` (deconf.py lines 140-162), with the
dependency loop of lines 146-160 expressed through `Task.deps`.  The
`chain` list is threaded exactly as the mutated Python list: appends
survive returns into the caller.  `fuel` only makes the recursion
structural; every recursive call decrements it. -/
def processParam (cls : String) (methods : List Param) (kwargs : Kwargs) :
    Nat → Task → St → List String → Except (Err × St) (St × List String)
  | 0, _, st, _ => .error (.outOfFuel, st)
  | fuel + 1, .proc param method, st, chain =>
    let chain1 := chain ++ [param]
    let ds := match method with
      | some p => p.depends_on
      | none => []
    match processParam cls methods kwargs fuel (.deps ds) st chain1 with
    | .error e => .error e
    | .ok (st1, chain2) =>
      match method with
      | none => .error (.noneNotCallable, st1)
      | some p =>
        match wrapper cls p kwargs st1 with
        | .error e => .error e
        | .ok st2 =>
          .ok ({ st2 with param_vals := insertKey st2.param_vals param }, chain2)
  | _ + 1, .deps [], st, chain => .ok (st, chain)
  | fuel + 1, .deps (d :: rest), st, chain =>
    if d ∈ chain then .error (.cyclical (chain.headD ""), st)
    else
      let dep_method := methods.find? (fun q => q.name == d)
      let step :=
        if d ∈ st.param_vals then Except.ok (st, chain)
        else processParam cls methods kwargs fuel (.proc d dep_method) st chain
      match step with
      | .error e => .error e
      | .ok (st1, chain1) =>
        if d ∈ st1.param_vals then
          processParam cls methods kwargs fuel (.deps rest) st1 chain1
        else .error (.required cls d, st1)

/-- Fuel that is ample for the recursion depth of `_process_param` on the
given registry (the depth is bounded by the number of declared names plus
the lengths of the dependency lists on the active chain). -/
def fuelOf (methods : List Param) : Nat :=
  methods.foldl (fun n p => n + p.depends_on.length + 2) 2

/-- The loop of `Deconfigurable.__init__` (lines 129-130): every declared
parameter is processed, each with a fresh chain (`chain=None`). -/
def initLoop (cls : String) (methods : List Param) (kwargs : Kwargs) :
    List Param → St → Except (Err × St) St
  | [], st => .ok st
  | p :: rest, st =>
    match processParam cls methods kwargs (fuelOf methods) (.proc p.name (some p)) st [] with
    | .error e => .error e
    | .ok (st1, _) => initLoop cls methods kwargs rest st1

/-- `Deconfigurable.__init__` (deconf.py lines 126-130): `methods` is
`self._param_methods` in dict iteration order, and resolution starts from
an empty `_param_vals`, no attributes and an empty trace. -/
def Deconfigurable.init (cls : String) (methods : List Param) (kwargs : Kwargs) :
    Except (Err × St) St :=
  initLoop cls methods kwargs methods { param_vals := [], attrs := [], trace := [] }

/-- Did a step (or the whole construction) succeed? -/
def resOk {ε α : Type} : Except ε α → Bool
  | .ok _ => true
  | .error _ => false

/-- The final attribute named `k` of a successful construction. -/
def runAttr (cls : String) (methods : List Param) (kwargs : Kwargs) (k : String) :
    Option Value :=
  match Deconfigurable.init cls methods kwargs with
  | .ok st => st.attrs.lookup k
  | .error _ => none

/-- The transform-invocation trace of a construction (on failure, the
trace accumulated up to the raise). -/
def runTrace (cls : String) (methods : List Param) (kwargs : Kwargs) : List String :=
  match Deconfigurable.init cls methods kwargs with
  | .ok st => st.trace
  | .error (_, st) => st.trace

/-- The pass-through handler of the documentation: a body of `pass`
returns Python `None`. -/
def passThrough : Attrs → Value → Value := fun _ _ => Value.vnone

/-! ## Concrete declaration sets used by the claims -/

/-- Registry in which the dependent parameter `b` is iterated before its
dependency `a` (Python: `dir()` sorts handler names, so the user's method
names fix this order). -/
def c1Methods : List Param :=
  [⟨"b", ["a"], none, none, passThrough⟩,
   ⟨"a", [], none, none, passThrough⟩]

def c1Kwargs : Kwargs := [("a", Value.vint 1), ("b", Value.vint 2)]

/-- The diamond `a→b`, `a→c`, `b→d`, `c→d`, iterated in the dependency
order `a, b, c, d`. -/
def diamondMethods : List Param :=
  [⟨"a", [], none, none, passThrough⟩,
   ⟨"b", ["a"], none, none, passThrough⟩,
   ⟨"c", ["a"], none, none, passThrough⟩,
   ⟨"d", ["b", "c"], none, none, passThrough⟩]

def diamondKwargs : Kwargs :=
  [("a", Value.vint 1), ("b", Value.vint 2),
   ("c", Value.vint 3), ("d", Value.vint 4)]

/-- Registry with two parameters depending on `x`, one iterated before
`x` and one after. -/
def c5Methods : List Param :=
  [⟨"y", ["x"], none, none, passThrough⟩,
   ⟨"x", [], none, none, passThrough⟩,
   ⟨"z", ["x"], none, none, passThrough⟩]

def c5Kwargs : Kwargs :=
  [("x", Value.vint 1), ("y", Value.vint 2), ("z", Value.vint 3)]

/-- The `can_vote` handler of the spec's example scenario: force `False`
below voting age, otherwise return the value unchanged (mirroring the
docstring's `handle_vote`, which reads `self.age`). -/
def voteTransform : Attrs → Value → Value := fun self v =>
  match self.lookup "age" with
  | some (Value.vint n) => if n < 18 then Value.vbool false else v
  | _ => v

/-- The spec's example declarations: `first_name` (string, required),
`age` (integer, required), `can_vote` (boolean, depends on `age`), in the
`dir()` order of the docstring-style handler names. -/
def personMethods : List Param :=
  [⟨"age", [], some PyType.tint, none, passThrough⟩,
   ⟨"first_name", [], some PyType.tstr, none, passThrough⟩,
   ⟨"can_vote", ["age"], some PyType.tbool, none, voteTransform⟩]

def kidKwargs : Kwargs :=
  [("first_name", Value.vstr "Kid"), ("age", Value.vint 12),
   ("can_vote", Value.vbool true)]

/-- A parameter whose dependency `x` has no declaration at all. -/
def c4Methods : List Param :=
  [⟨"p", ["x"], none, none, passThrough⟩]

def c4Kwargs : Kwargs := [("p", Value.vint 1)]

/-- A single declared parameter `a`, used to exercise unknown argument
keys. -/
def c10Methods : List Param :=
  [⟨"a", [], none, none, passThrough⟩]

/-- The final attribute named `k` after one `wrapper` call. -/
def wrapAttr (r : Except (Err × St) St) (k : String) : Option Value :=
  match r with
  | .ok st => st.attrs.lookup k
  | .error _ => none

/-! ## Helper lemmas -/

/-- A missing value for a parameter with no default makes `wrapper` raise
`RequiredParameterError` (deconf.py lines 177-180). -/
theorem wrapper_required (cls : String) (p : Param) (kwargs : Kwargs) (st : St)
    (hd : p.default = none) (hk : kwargs.lookup p.name = none) :
    wrapper cls p kwargs st = .error (.required cls p.name, st) := by
  simp [wrapper, hk, hd]

/-- Every success of `wrapper` stores one new attribute named after the
parameter and leaves `param_vals` unchanged. -/
theorem wrapper_ok_shape (cls : String) (p : Param) (kwargs : Kwargs) (st st' : St)
    (h : wrapper cls p kwargs st = .ok st') :
    ∃ v, st'.attrs = (p.name, v) :: st.attrs ∧ st'.param_vals = st.param_vals := by
  simp only [wrapper] at h
  split at h
  · split at h
    · split at h
      · cases h; exact ⟨_, rfl, rfl⟩
      · cases h
    · cases h; exact ⟨_, rfl, rfl⟩
  · split at h
    · cases h; exact ⟨_, rfl, rfl⟩
    · cases h

/-- Processing a parameter that has no default and no supplied value
never succeeds, whatever the fuel, state and chain (the final
`method(kwargs)` call raises). -/
theorem processParam_required_error (cls : String) (methods : List Param)
    (kwargs : Kwargs) (p : Param)
    (hd : p.default = none) (hk : kwargs.lookup p.name = none) :
    ∀ fuel st chain,
      resOk (processParam cls methods kwargs fuel (.proc p.name (some p)) st chain) = false := by
  intro fuel st chain
  cases fuel with
  | zero => rfl
  | succ n =>
    simp only [processParam]
    rcases h : processParam cls methods kwargs n (.deps p.depends_on) st (chain ++ [p.name])
      with e | ⟨st1, ch⟩
    · simp [resOk]
    · simp [wrapper_required cls p kwargs st1 hd hk, resOk]

/-- If the loop of `__init__` still has to process a parameter that has
no default and no supplied value, construction fails. -/
theorem initLoop_required_error (cls : String) (methods : List Param)
    (kwargs : Kwargs) (p : Param)
    (hd : p.default = none) (hk : kwargs.lookup p.name = none) :
    ∀ l st, p ∈ l → resOk (initLoop cls methods kwargs l st) = false := by
  intro l
  induction l with
  | nil => intro st h; cases h
  | cons q rest ih =>
    intro st h
    simp only [initLoop]
    rcases hr : processParam cls methods kwargs (fuelOf methods) (.proc q.name (some q)) st []
      with e | ⟨st1, ch⟩
    · simp [resOk]
    · rcases List.mem_cons.mp h with rfl | hmem
      · have := processParam_required_error cls methods kwargs p hd hk
          (fuelOf methods) st []
        rw [hr] at this
        simp [resOk] at this
      · simpa using ih st1 hmem

/-- The `method` argument a reachable `_process_param` call can carry:
either `None` (an undeclared dependency name) or a handler from the
registry. -/
def taskInScope (methods : List Param) : Task → Prop
  | .proc _ method => method = none ∨ ∃ p, method = some p ∧ p ∈ methods
  | .deps _ => True

/-- `wrapper` reads the argument mapping only at the parameter's own
name. -/
theorem wrapper_congr (cls : String) (p : Param) (k1 k2 : Kwargs) (st : St)
    (h : k1.lookup p.name = k2.lookup p.name) :
    wrapper cls p k1 st = wrapper cls p k2 st := by
  simp only [wrapper, h]

/-- `_process_param` reads the argument mapping only at declared
parameter names: two mappings agreeing there drive it identically. -/
theorem processParam_congr (cls : String) (methods : List Param) (k1 k2 : Kwargs)
    (hagree : ∀ p ∈ methods, k1.lookup p.name = k2.lookup p.name) :
    ∀ fuel task st chain, taskInScope methods task →
      processParam cls methods k1 fuel task st chain
        = processParam cls methods k2 fuel task st chain := by
  intro fuel
  induction fuel with
  | zero => intro task st chain _; rfl
  | succ n ih =>
    intro task st chain hsc
    cases task with
    | proc param method =>
      cases method with
      | none =>
        simp only [processParam]
        rw [ih (.deps []) st (chain ++ [param]) trivial]
      | some p =>
        have hp : p ∈ methods := by
          obtain h | ⟨q, hq, hqm⟩ :=
            (hsc : some p = none ∨ ∃ q, some p = some q ∧ q ∈ methods)
          · cases h
          · cases hq; exact hqm
        have hw : ∀ s : St, wrapper cls p k1 s = wrapper cls p k2 s :=
          fun s => wrapper_congr cls p k1 k2 s (hagree p hp)
        simp only [processParam,
          ih (.deps p.depends_on) st (chain ++ [param]) trivial, hw]
    | deps ds =>
      cases ds with
      | nil => simp only [processParam]
      | cons d rest =>
        simp only [processParam]
        by_cases hd : d ∈ chain
        · simp only [if_pos hd]
        · simp only [if_neg hd]
          have hsub : taskInScope methods (.proc d (methods.find? fun q => q.name == d)) := by
            rcases hf : methods.find? (fun q => q.name == d) with _ | q
            · exact Or.inl hf
            · exact Or.inr ⟨q, hf, List.mem_of_find?_eq_some hf⟩
          have hrec2 : ∀ s c, processParam cls methods k1 n (.deps rest) s c
              = processParam cls methods k2 n (.deps rest) s c :=
            fun s c => ih (.deps rest) s c trivial
          simp only [ih (.proc d (methods.find? fun q => q.name == d)) st chain hsub,
            hrec2]

/-- The loop of `__init__` under two argument mappings agreeing on all
declared names. -/
theorem initLoop_congr (cls : String) (methods : List Param) (k1 k2 : Kwargs)
    (hagree : ∀ p ∈ methods, k1.lookup p.name = k2.lookup p.name) :
    ∀ l st, (∀ p ∈ l, p ∈ methods) →
      initLoop cls methods k1 l st = initLoop cls methods k2 l st := by
  intro l
  induction l with
  | nil => intro st _; rfl
  | cons p rest ih =>
    intro st hsub
    have hp : p ∈ methods := hsub p (List.mem_cons_self p rest)
    have hstep := processParam_congr cls methods k1 k2 hagree (fuelOf methods)
      (.proc p.name (some p)) st [] (Or.inr ⟨p, rfl, hp⟩)
    have ihr : ∀ s, initLoop cls methods k1 rest s = initLoop cls methods k2 rest s :=
      fun s => ih s (fun q hq => hsub q (List.mem_cons_of_mem p hq))
    simp only [initLoop, hstep, ihr]

/-- Every attribute key of `st` names a declared parameter. -/
def attrsDeclared (methods : List Param) (st : St) : Prop :=
  ∀ kv ∈ st.attrs, ∃ p ∈ methods, p.name = kv.1

/-- A successful `wrapper` call only adds an attribute named after its
own (declared) parameter. -/
theorem wrapper_attrsDeclared (cls : String) (methods : List Param) (p : Param)
    (kwargs : Kwargs) (st st' : St) (hp : p ∈ methods)
    (hst : attrsDeclared methods st) (h : wrapper cls p kwargs st = .ok st') :
    attrsDeclared methods st' := by
  obtain ⟨v, hattrs, -⟩ := wrapper_ok_shape cls p kwargs st st' h
  intro kv hkv
  rw [hattrs] at hkv
  rcases List.mem_cons.mp hkv with rfl | hkv'
  · exact ⟨p, hp, rfl⟩
  · exact hst kv hkv'

/-- `_process_param` only ever creates attributes named after declared
parameters. -/
theorem processParam_attrsDeclared (cls : String) (methods : List Param)
    (kwargs : Kwargs) :
    ∀ fuel task st chain st' ch', taskInScope methods task →
      attrsDeclared methods st →
      processParam cls methods kwargs fuel task st chain = .ok (st', ch') →
      attrsDeclared methods st' := by
  intro fuel
  induction fuel with
  | zero =>
    intro task st chain st' ch' _ _ h
    simp [processParam] at h
  | succ n ih =>
    intro task st chain st' ch' hsc hst h
    cases task with
    | proc param method =>
      cases method with
      | none =>
        simp only [processParam] at h
        rcases hr : processParam cls methods kwargs n (.deps []) st (chain ++ [param])
          with e | ⟨st1, ch2⟩ <;> rw [hr] at h <;> cases h
      | some p =>
        have hp : p ∈ methods := by
          obtain hno | ⟨q, hq, hqm⟩ :=
            (hsc : some p = none ∨ ∃ q, some p = some q ∧ q ∈ methods)
          · cases hno
          · cases hq; exact hqm
        simp only [processParam] at h
        rcases hr : processParam cls methods kwargs n (.deps p.depends_on) st (chain ++ [param])
          with e | ⟨st1, ch2⟩
        · rw [hr] at h; cases h
        · simp only [hr] at h
          have hst1 : attrsDeclared methods st1 :=
            ih (.deps p.depends_on) st (chain ++ [param]) st1 ch2 trivial hst hr
          rcases hw : wrapper cls p kwargs st1 with e | st2
          · rw [hw] at h; cases h
          · simp only [hw, Except.ok.injEq, Prod.mk.injEq] at h
            obtain ⟨h1, -⟩ := h
            subst h1
            exact fun kv hkv =>
              wrapper_attrsDeclared cls methods p kwargs st1 st2 hp hst1 hw kv hkv
    | deps ds =>
      cases ds with
      | nil =>
        simp only [processParam] at h
        cases h
        exact hst
      | cons d rest =>
        simp only [processParam] at h
        by_cases hd : d ∈ chain
        · rw [if_pos hd] at h; cases h
        · rw [if_neg hd] at h
          by_cases hv : d ∈ st.param_vals
          · simp only [hv, if_true] at h
            exact ih (.deps rest) st chain st' ch' trivial hst h
          · simp only [hv, if_false] at h
            have hsub : taskInScope methods (.proc d (methods.find? fun q => q.name == d)) := by
              rcases hf : methods.find? (fun q => q.name == d) with _ | q
              · exact Or.inl hf
              · exact Or.inr ⟨q, hf, List.mem_of_find?_eq_some hf⟩
            rcases hr : processParam cls methods kwargs n
                (.proc d (methods.find? fun q => q.name == d)) st chain
              with e | ⟨st1, ch1⟩
            · rw [hr] at h; cases h
            · simp only [hr] at h
              have hst1 : attrsDeclared methods st1 :=
                ih (.proc d (methods.find? fun q => q.name == d)) st chain st1 ch1 hsub hst hr
              by_cases hv1 : d ∈ st1.param_vals
              · simp only [hv1, if_true] at h
                exact ih (.deps rest) st1 ch1 st' ch' trivial hst1 h
              · simp only [hv1, if_false] at h
                cases h

/-- The loop of `__init__` preserves the attribute-domain invariant. -/
theorem initLoop_attrsDeclared (cls : String) (methods : List Param) (kwargs : Kwargs) :
    ∀ l st st', (∀ p ∈ l, p ∈ methods) → attrsDeclared methods st →
      initLoop cls methods kwargs l st = .ok st' → attrsDeclared methods st' := by
  intro l
  induction l with
  | nil =>
    intro st st' _ hst h
    cases h
    exact hst
  | cons p rest ih =>
    intro st st' hsub hst h
    have hp : p ∈ methods := hsub p (List.mem_cons_self p rest)
    simp only [initLoop] at h
    rcases hr : processParam cls methods kwargs (fuelOf methods) (.proc p.name (some p)) st []
      with e | ⟨st1, ch⟩
    · rw [hr] at h; cases h
    · simp only [hr] at h
      have hst1 : attrsDeclared methods st1 :=
        processParam_attrsDeclared cls methods kwargs (fuelOf methods)
          (.proc p.name (some p)) st [] st1 ch (Or.inr ⟨p, rfl, hp⟩) hst hr
      exact ih st1 st' (fun q hq => hsub q (List.mem_cons_of_mem p hq)) hst1 h

/-- An association-list lookup hit is a member. -/
theorem mem_of_lookup_eq_some {l : List (String × Value)} {k : String} {v : Value}
    (h : l.lookup k = some v) : (k, v) ∈ l := by
  obtain ⟨l1, l2, rfl, -⟩ := List.lookup_eq_some_iff.mp h
  exact List.mem_append_right l1 (List.mem_cons_self (k, v) l2)

/-! ## Claim C1 -/

/-- C1, counterexample: the claim "each declared parameter's transform is
invoked exactly once per successful construction" is false.  With the
dependent parameter `b` iterated before its dependency `a`, construction
succeeds and `a`'s transform is invoked twice: once while resolving `b`'s
dependency, and once more when the top-level loop of `__init__` (which
does not consult `_param_vals`) reaches `a` itself. -/
theorem claim_C1_counterexample :
    resOk (Deconfigurable.init "T" c1Methods c1Kwargs) = true ∧
    (runTrace "T" c1Methods c1Kwargs).count "a" = 2 :=
  ⟨rfl, rfl⟩

/-- C1, amended: when the top-level iteration order lists every parameter
before all parameters that depend on it, each transform is invoked
exactly once; in particular the diamond `a→b`, `a→c`, `b→d`, `c→d`
declared in order `a, b, c, d` with all required values supplied
constructs successfully, invokes each transform exactly once, and
invokes `a`'s transform once. -/
theorem claim_C1_amended :
    resOk (Deconfigurable.init "T" diamondMethods diamondKwargs) = true ∧
    runTrace "T" diamondMethods diamondKwargs = ["a", "b", "c", "d"] ∧
    (runTrace "T" diamondMethods diamondKwargs).count "a" = 1 :=
  ⟨rfl, rfl, rfl⟩

/-! ## Claim C2 -/

/-- C2, evaluation of the code at the claimed input: with declarations
`first_name` (string, required), `age` (integer, required), `can_vote`
(boolean, depends on `age`, transform forcing `False` below 18) and
arguments `{first_name: "Kid", age: 12, can_vote: True}`, construction
succeeds but `can_vote` resolves to `True`, not `False`: the transform
returns `False`, which is falsy, so `retval or val` (line 182) discards
it in favour of the raw argument `True`.  The class docstring asserts the
result is `False`, so the code contradicts its own documentation. -/
theorem claim_C2_code_result :
    resOk (Deconfigurable.init "Person" personMethods kidKwargs) = true ∧
    runAttr "Person" personMethods kidKwargs "can_vote" = some (Value.vbool true) :=
  ⟨rfl, rfl⟩

/-! ## Claim C3 -/

/-- C3: whenever `wrapper` reaches the transform with input value `v`
(either `v` was supplied and passed the type check, or `v` is the
default), a falsy transform result makes the raw value `v` the stored
final value, and a truthy transform result becomes the final value
itself (`retval or val`, deconf.py line 182). -/
theorem claim_C3_truthiness_selects_final_value (cls : String) (p : Param)
    (kwargs : Kwargs) (st : St) (v : Value)
    (h : (kwargs.lookup p.name = some v ∧ typeOk p v = true) ∨
         (kwargs.lookup p.name = none ∧ p.default = some v)) :
    (truthy (p.transform st.attrs v) = false →
      wrapAttr (wrapper cls p kwargs st) p.name = some v) ∧
    (truthy (p.transform st.attrs v) = true →
      wrapAttr (wrapper cls p kwargs st) p.name = some (p.transform st.attrs v)) := by
  have key : wrapAttr (wrapper cls p kwargs st) p.name
      = some (orVal (p.transform st.attrs v) v) := by
    rcases h with ⟨hl, hty⟩ | ⟨hl, hd⟩
    · rcases ht : p.ensure_type with _ | t
      · simp [wrapper, hl, ht, wrapAttr, setattr, List.lookup]
      · have hty' : isInstance v t = true := by simpa [typeOk, ht] using hty
        simp [wrapper, hl, ht, hty', wrapAttr, setattr, List.lookup]
    · simp [wrapper, hl, hd, wrapAttr, setattr, List.lookup]
  constructor <;> intro htr <;> rw [key] <;> simp [orVal, htr]

/-- Witness for C3 at a concrete input: a transform returning the falsy
integer `0` on the supplied value `5` stores the raw `5`. -/
theorem claim_C3_witness :
    wrapAttr (wrapper "T" ⟨"p", [], none, none, fun _ _ => Value.vint 0⟩
        [("p", Value.vint 5)] ⟨[], [], []⟩) "p" = some (Value.vint 5) :=
  (claim_C3_truthiness_selects_final_value "T"
      ⟨"p", [], none, none, fun _ _ => Value.vint 0⟩
      [("p", Value.vint 5)] ⟨[], [], []⟩ (Value.vint 5)
      (Or.inl ⟨rfl, rfl⟩)).1 rfl

/-! ## Claim C4 -/

/-- C4, evaluation of the code at the failing input: a parameter `p`
depending on the undeclared name `x` does not produce the
`RequiredParameterError` of the claim (that branch, deconf.py lines
157-160, is unreachable): `_process_param` is recursively invoked with
`method = None` and the call `method(kwargs)` at line 162 raises
Python's `TypeError` (`'NoneType' object is not callable`) first. -/
theorem claim_C4_code_result :
    Deconfigurable.init "T" c4Methods c4Kwargs
      = .error (Err.noneNotCallable, { param_vals := [], attrs := [], trace := [] }) :=
  rfl

/-! ## Claim C5 -/

/-- C5, counterexample: the claim "top-level iteration resolves only the
declared parameters that are not already present in `resolved`" is
false: the loop of `__init__` (lines 129-130) never consults
`_param_vals`, so after `x` is resolved as `y`'s dependency the
top-level loop recomputes it, invoking its transform a second time. -/
theorem claim_C5_counterexample :
    resOk (Deconfigurable.init "T" c5Methods c5Kwargs) = true ∧
    (runTrace "T" c5Methods c5Kwargs).count "x" = 2 :=
  ⟨rfl, rfl⟩

/-- C5, amended: dependency processing does honour `resolved`: a
dependency already present in `_param_vals` is skipped outright (no
recursion, no transform).  The top-level loop, however, processes every
declared parameter unconditionally, so a parameter already resolved as a
dependency is recomputed there - as the trace `x, y, x, z` shows: `x` is
re-invoked by the top-level loop after being resolved for `y`, but `z`'s
dependency processing does not invoke it a third time. -/
theorem claim_C5_amended :
    (∀ (cls : String) (methods : List Param) (kwargs : Kwargs) (fuel : Nat)
        (d : String) (rest : List String) (st : St) (chain : List String),
        d ∉ chain → d ∈ st.param_vals →
        processParam cls methods kwargs (fuel + 1) (.deps (d :: rest)) st chain
          = processParam cls methods kwargs fuel (.deps rest) st chain) ∧
    resOk (Deconfigurable.init "T" c5Methods c5Kwargs) = true ∧
    runTrace "T" c5Methods c5Kwargs = ["x", "y", "x", "z"] := by
  refine ⟨?_, rfl, rfl⟩
  intro cls methods kwargs fuel d rest st chain hc hv
  simp [processParam, hc, hv]

/-- Witness for C5 at a concrete input: with `x` already resolved, the
dependency step for `x` is skipped entirely. -/
theorem claim_C5_amended_witness :
    processParam "T" c5Methods c5Kwargs (1 + 1) (.deps ["x"]) ⟨["x"], [], []⟩ []
      = processParam "T" c5Methods c5Kwargs 1 (.deps []) ⟨["x"], [], []⟩ [] :=
  claim_C5_amended.1 "T" c5Methods c5Kwargs 1 "x" [] ⟨["x"], [], []⟩ []
    (by simp) (by simp)

/-! ## Claim C6 -/

/-- C6: for any two distinct names `a` and `b`, the declaration set
consisting of a parameter `a` depending on `b` and a parameter `b`
depending on `a` - whatever their type constraints, defaults and
transforms, and whatever the arguments - always fails with
`CyclicalDependencyError`, before any transform runs (the error state
still has an empty invocation trace, empty `_param_vals` and no
attributes), and the error names the parameter at the start of the
active traversal chain (`chain[0]`, here the first-iterated `a`) as the
offending root. -/
theorem claim_C6_cycle_detection (cls a b : String) (hne : a ≠ b)
    (t1 t2 : Option PyType) (d1 d2 : Option Value)
    (f1 f2 : Attrs → Value → Value) (kwargs : Kwargs) :
    Deconfigurable.init cls
        [⟨a, [b], t1, d1, f1⟩, ⟨b, [a], t2, d2, f2⟩] kwargs
      = .error (.cyclical a, { param_vals := [], attrs := [], trace := [] }) := by
  have hba : (a == b) = false := beq_eq_false_iff_ne.mpr hne
  have hab : ¬ (b = a) := fun h => hne h.symm
  have hfuel : fuelOf [(⟨a, [b], t1, d1, f1⟩ : Param), ⟨b, [a], t2, d2, f2⟩]
      = 4 + 1 + 1 + 1 + 1 := rfl
  simp [Deconfigurable.init, initLoop, hfuel, processParam, List.find?, hba, hab]

/-- Witness for C6 at a concrete input: the two-parameter cycle
`x depends_on y`, `y depends_on x` with empty arguments. -/
theorem claim_C6_witness :
    Deconfigurable.init "T"
        [⟨"x", ["y"], none, none, passThrough⟩, ⟨"y", ["x"], none, none, passThrough⟩] []
      = .error (.cyclical "x", { param_vals := [], attrs := [], trace := [] }) :=
  claim_C6_cycle_detection "T" "x" "y" (by decide) none none none none
    passThrough passThrough []

/-! ## Claim C7 -/

/-- C7: a declared parameter with no default that is omitted from the
argument mapping makes its `wrapper` raise `RequiredParameterError`
naming the parameter and the configurable type (lines 177-180), and a
construction whose registry contains such a parameter never succeeds. -/
theorem claim_C7_required_by_default (cls : String) (methods : List Param)
    (p : Param) (kwargs : Kwargs) (st : St)
    (hd : p.default = none) (hk : kwargs.lookup p.name = none) (hm : p ∈ methods) :
    wrapper cls p kwargs st = .error (.required cls p.name, st) ∧
    resOk (Deconfigurable.init cls methods kwargs) = false :=
  ⟨wrapper_required cls p kwargs st hd hk,
   initLoop_required_error cls methods kwargs p hd hk methods
     { param_vals := [], attrs := [], trace := [] } hm⟩

/-- Witness for C7 at a concrete input: a required parameter `q` with no
supplied value. -/
theorem claim_C7_witness :
    wrapper "T" ⟨"q", [], none, none, passThrough⟩ [] ⟨[], [], []⟩
      = .error (.required "T" "q", ⟨[], [], []⟩) ∧
    resOk (Deconfigurable.init "T" [⟨"q", [], none, none, passThrough⟩] []) = false :=
  claim_C7_required_by_default "T" [⟨"q", [], none, none, passThrough⟩]
    ⟨"q", [], none, none, passThrough⟩ [] ⟨[], [], []⟩ rfl rfl
    (List.mem_singleton.mpr rfl)

/-! ## Claim C8 -/

/-- C8: a declared parameter with a default that is omitted from the
argument mapping resolves successfully using the default value, and no
type-constraint check is applied to the default (the `isinstance` test
of line 171 sits in the `param in kwargs` branch only) - note the
absence of any hypothesis on `ensure_type`. -/
theorem claim_C8_default_bypass (cls : String) (p : Param) (kwargs : Kwargs)
    (st : St) (d : Value)
    (hd : p.default = some d) (hk : kwargs.lookup p.name = none) :
    resOk (wrapper cls p kwargs st) = true ∧
    wrapAttr (wrapper cls p kwargs st) p.name
      = some (orVal (p.transform st.attrs d) d) := by
  constructor <;> simp [wrapper, hk, hd, wrapAttr, resOk, setattr, List.lookup]

/-- Witness for C8 at a concrete input: the default `"x"` violates the
declared `int` constraint yet resolution succeeds with it. -/
theorem claim_C8_witness :
    resOk (wrapper "T" ⟨"p", [], some PyType.tint, some (Value.vstr "x"), passThrough⟩
      [] ⟨[], [], []⟩) = true ∧
    wrapAttr (wrapper "T" ⟨"p", [], some PyType.tint, some (Value.vstr "x"), passThrough⟩
      [] ⟨[], [], []⟩) "p" = some (Value.vstr "x") :=
  claim_C8_default_bypass "T" ⟨"p", [], some PyType.tint, some (Value.vstr "x"), passThrough⟩
    [] ⟨[], [], []⟩ (Value.vstr "x") rfl rfl

/-! ## Claim C9 -/

/-- C9: for a type-constrained parameter, a supplied value that is not an
instance of the constrained type raises `ParameterTypeError` naming the
parameter and the expected type (lines 171-173), and a supplied value of
the correct type makes `wrapper` succeed (so in particular it never
raises `ParameterTypeError`). -/
theorem claim_C9_type_enforcement (cls : String) (p : Param) (kwargs : Kwargs)
    (st : St) (v : Value) (t : PyType)
    (ht : p.ensure_type = some t) (hk : kwargs.lookup p.name = some v) :
    (isInstance v t = false →
      wrapper cls p kwargs st = .error (.paramType p.name t, st)) ∧
    (isInstance v t = true → resOk (wrapper cls p kwargs st) = true) := by
  constructor <;> intro h <;> simp [wrapper, hk, ht, h, resOk]

/-- Witness for C9 at a concrete input: the spec's scenario
`age: "twelve"` against the `int` constraint. -/
theorem claim_C9_witness :
    (isInstance (Value.vstr "twelve") PyType.tint = false →
      wrapper "Person" ⟨"age", [], some PyType.tint, none, passThrough⟩
          [("age", Value.vstr "twelve")] ⟨[], [], []⟩
        = .error (.paramType "age" PyType.tint, ⟨[], [], []⟩)) ∧
    (isInstance (Value.vstr "twelve") PyType.tint = true →
      resOk (wrapper "Person" ⟨"age", [], some PyType.tint, none, passThrough⟩
          [("age", Value.vstr "twelve")] ⟨[], [], []⟩) = true) :=
  claim_C9_type_enforcement "Person" ⟨"age", [], some PyType.tint, none, passThrough⟩
    [("age", Value.vstr "twelve")] ⟨[], [], []⟩ (Value.vstr "twelve") PyType.tint
    rfl rfl

/-! ## Claim C10 -/

/-- C10: argument keys naming no declared parameter are ignored: two
argument mappings that agree at every declared parameter name (so in
particular two mappings differing only in keys that name no declared
parameter) yield the very same construction outcome - same success or
failure, same resolved attribute values, same invocation trace - and a
successful construction never creates an attribute under a key other
than a declared parameter name. -/
theorem claim_C10_unknown_keys_ignored (cls : String) (methods : List Param)
    (k1 k2 : Kwargs)
    (hagree : ∀ p ∈ methods, k1.lookup p.name = k2.lookup p.name) :
    Deconfigurable.init cls methods k1 = Deconfigurable.init cls methods k2 ∧
    (∀ st, Deconfigurable.init cls methods k1 = .ok st →
      ∀ k v, st.attrs.lookup k = some v → ∃ p ∈ methods, p.name = k) := by
  constructor
  · exact initLoop_congr cls methods k1 k2 hagree methods
      { param_vals := [], attrs := [], trace := [] } (fun p hp => hp)
  · intro st hok k v hkv
    have hdecl : attrsDeclared methods st :=
      initLoop_attrsDeclared cls methods k1 methods
        { param_vals := [], attrs := [], trace := [] } st (fun p hp => hp)
        (fun kv hkv' => absurd hkv' (List.not_mem_nil kv)) hok
    exact hdecl (k, v) (mem_of_lookup_eq_some hkv)

/-- Witness for C10 at a concrete input: adding the unknown key `junk`
changes nothing. -/
theorem claim_C10_witness :
    (Deconfigurable.init "T" c10Methods [("a", Value.vint 1)]
      = Deconfigurable.init "T" c10Methods
          [("a", Value.vint 1), ("junk", Value.vint 9)]) ∧
    (∀ st, Deconfigurable.init "T" c10Methods [("a", Value.vint 1)] = .ok st →
      ∀ k v, st.attrs.lookup k = some v → ∃ p ∈ c10Methods, p.name = k) :=
  claim_C10_unknown_keys_ignored "T" c10Methods
    [("a", Value.vint 1)] [("a", Value.vint 1), ("junk", Value.vint 9)]
    (by
      intro p hp
      rcases List.mem_singleton.mp hp with rfl
      rfl)

end Deconf
